import Mathlib

/-!
Shallow embedding of the repository c-blocking-bounded-queue
(src/nm_blocking_bounded_queue.c / .h).

Modelling conventions:
- Opaque item handles (C "void*") are modelled as natural numbers, with 0
  playing the role of the NULL pointer ("calloc" zero-fills the backing array,
  so fresh slots read as 0).
- A possibly-NULL "nm_queue*" handle is an "Option nm_queue"; "none" is the
  NULL handle.
- "size_t" values are Nat.  Overflow is impossible in enqueue/dequeue for any
  state reachable from nm_queue_create (indices stay below the capacity, a
  size_t), so plain Nat addition is faithful there.  In nm_queue_for_each the
  size_t wraparound of the "items_left--" post-decrement IS observable, so the
  loop and the final subtraction are modelled with explicit mod 2^64.
- The possibly-NULL output pointer "item_ptr_" of nm_queue_dequeue is a
  boolean flag ("is the pointer NULL?"); the value the C code stores through
  it is returned as an "Option Nat".
-/

/-- MAX_SIZE_T, i.e. ((size_t)-1), from the C define. -/
def MAX_SIZE_T : Nat := 2 ^ 64 - 1

/-- The nm_queue_status enum from the header. -/
inductive nm_queue_status where
  | NM_QUEUE_SUCCESS
  | NM_QUEUE_UNINITIALIZED_ERROR
  | NM_QUEUE_OVERFLOW_ERROR
  | NM_QUEUE_UNDERFLOW_ERROR
deriving DecidableEq

/-- struct nm_queue: backing array of item handles, capacity, head (next
read index), tail (next write index), occupied count.  The backing array is
a list whose length is the capacity for every queue built by
nm_queue_create. -/
structure nm_queue where
  items_ : List Nat
  capacity_ : Nat
  head_ : Nat
  tail_ : Nat
  items_count_ : Nat
deriving DecidableEq

/-- nm_queue_create: fails (NULL) on zero size; otherwise allocates a
zero-filled (all-NULL) array of init_size_ slots and zero indices
(the NM_QUEUE_INIT macro).  The malloc/calloc failure paths return NULL
nondeterministically in C; the model takes the successful-allocation path. -/
def nm_queue_create (init_size_ : Nat) : Option nm_queue :=
  if init_size_ = 0 then none
  else some { items_ := List.replicate init_size_ 0,
              capacity_ := init_size_,
              head_ := 0,
              tail_ := 0,
              items_count_ := 0 }

/-- nm_queue_enqueue: NULL queue or NULL item -> NM_QUEUE_UNINITIALIZED_ERROR;
full (capacity_ == items_count_) -> NM_QUEUE_OVERFLOW_ERROR; otherwise the
item is stored at tail_, tail_ is advanced modulo capacity_, the count is
incremented.  Returns the status and the queue state after the call. -/
def nm_queue_enqueue : Option nm_queue → Nat → nm_queue_status × Option nm_queue
  | none, _ => (.NM_QUEUE_UNINITIALIZED_ERROR, none)
  | some queue, item_ =>
    if item_ = 0 then (.NM_QUEUE_UNINITIALIZED_ERROR, some queue)
    else if queue.capacity_ = queue.items_count_ then
      (.NM_QUEUE_OVERFLOW_ERROR, some queue)
    else
      (.NM_QUEUE_SUCCESS, some { queue with
        items_ := queue.items_.set queue.tail_ item_,
        tail_ := (queue.tail_ + 1) % queue.capacity_,
        items_count_ := queue.items_count_ + 1 })

/-- nm_queue_dequeue: NULL queue or NULL output pointer ->
NM_QUEUE_UNINITIALIZED_ERROR; empty -> NM_QUEUE_UNDERFLOW_ERROR; otherwise
the head slot's item is written through the output pointer (last component),
the head slot is cleared to NULL, head_ is advanced modulo capacity_ and the
count is decremented. -/
def nm_queue_dequeue : Option nm_queue → Bool → nm_queue_status × Option nm_queue × Option Nat
  | none, _ => (.NM_QUEUE_UNINITIALIZED_ERROR, none, none)
  | some queue, item_ptr_is_null =>
    if item_ptr_is_null then (.NM_QUEUE_UNINITIALIZED_ERROR, some queue, none)
    else if queue.items_count_ = 0 then (.NM_QUEUE_UNDERFLOW_ERROR, some queue, none)
    else
      (.NM_QUEUE_SUCCESS,
       some { queue with
         items_ := queue.items_.set queue.head_ 0,
         head_ := (queue.head_ + 1) % queue.capacity_,
         items_count_ := queue.items_count_ - 1 },
       some (queue.items_.getD queue.head_ 0))

/-- nm_queue_is_empty: NULL queue -> -1; otherwise the C expression
"items_count_ == 0" (1 when empty, 0 when not). -/
def nm_queue_is_empty : Option nm_queue → Int
  | none => -1
  | some queue => if queue.items_count_ = 0 then 1 else 0

/-- nm_queue_capacity: NULL queue -> MAX_SIZE_T; otherwise capacity_. -/
def nm_queue_capacity : Option nm_queue → Nat
  | none => MAX_SIZE_T
  | some queue => queue.capacity_

/-- The while loop of nm_queue_for_each:

  while(items_left-- > 0) \x7b
      if(callback_(queue_->items_[item_idx++], context_) == 0) break;
      item_idx %= queue_capacity;
  \x7d

The visitor is a state-passing function (the C callback may mutate state
through its context pointer).  The result is the final value of the size_t
variable items_left together with the final context state.  When the loop
exits because the test fails, the post-decrement has wrapped items_left from
0 to MAX_SIZE_T; when it exits via break, items_left holds its decremented
value. -/
def for_each_loop {σ : Type} (items : List Nat) (cap : Nat)
    (callback_ : Nat → σ → Int × σ) : Nat → Nat → σ → Nat × σ
  | _, 0, context_ => (MAX_SIZE_T, context_)
  | item_idx, items_left + 1, context_ =>
    let r := callback_ (items.getD item_idx 0) context_
    if r.1 = 0 then (items_left, r.2)
    else for_each_loop items cap callback_ ((item_idx + 1) % cap) items_left r.2

/-- nm_queue_for_each: NULL queue or NULL callback -> MAX_SIZE_T; otherwise
runs the loop starting at head_ with items_left = items_count_ and returns
the size_t difference items_count_ - items_left (computed mod 2^64, since
items_left wraps to MAX_SIZE_T when the loop runs to completion). -/
def nm_queue_for_each {σ : Type} (q : Option nm_queue)
    (callback_ : Option (Nat → σ → Int × σ)) (context_ : σ) : Nat × σ :=
  match q, callback_ with
  | none, _ => (MAX_SIZE_T, context_)
  | some _, none => (MAX_SIZE_T, context_)
  | some queue, some f =>
    let r := for_each_loop queue.items_ queue.capacity_ f queue.head_
      queue.items_count_ context_
    ((queue.items_count_ + 2 ^ 64 - r.1) % 2 ^ 64, r.2)

/-- struct nm_barrier_t: party size, arrival counter (both C unsigned int),
and the turnstile semaphore's current value.  The mutex field is not part of
the sequential state (see nm_barrier_wait). -/
structure nm_barrier_t where
  max_threads_count_ : Nat
  waiting_threads_count_ : Nat
  turnstile_ : Nat
deriving DecidableEq

/-- nm_barrier_init: sets the party size, zeroes the arrival counter, and
creates the turnstile semaphore with initial value 0. -/
def nm_barrier_init (threads_count_ : Nat) : nm_barrier_t :=
  { max_threads_count_ := threads_count_ % 2 ^ 32,
    waiting_threads_count_ := 0,
    turnstile_ := 0 }

/-- nm_barrier_wait, executed by a single thread with no concurrent peers
(the exact situation of a party-size-1 barrier, and of any sequential call
chain): the mutex lock/unlock succeed immediately since the mutex is free.
The arrival counter is incremented (unsigned int, mod 2^32); if it equals the
party size the turnstile is posted max_threads_count_ times; then the caller
performs sem_wait on the turnstile.  With no peer left to post, a sem_wait on
a zero turnstile blocks forever: that outcome is "none". -/
def nm_barrier_wait (barrier_ : nm_barrier_t) : Option nm_barrier_t :=
  let waiting := (barrier_.waiting_threads_count_ + 1) % 2 ^ 32
  let posted :=
    if waiting = barrier_.max_threads_count_ then
      barrier_.turnstile_ + barrier_.max_threads_count_
    else barrier_.turnstile_
  if posted = 0 then none
  else some { barrier_ with
    waiting_threads_count_ := waiting,
    turnstile_ := posted - 1 }

/-- A single client call on the underlying queue: an enqueue of a given item
handle, or a dequeue (with a non-NULL output pointer). -/
inductive QueueOp where
  | enq : Nat → QueueOp
  | deq : QueueOp
deriving DecidableEq

/-- Run a sequence of enqueue/dequeue calls on a queue handle, returning the
final handle, the list of successfully enqueued items (in call order), and
the list of successfully dequeued items (in call order).  Calls that return
a non-success status contribute nothing to either list. -/
def runOps : Option nm_queue → List QueueOp → Option nm_queue × List Nat × List Nat
  | q, [] => (q, [], [])
  | q, QueueOp.enq item :: ops =>
    let r := nm_queue_enqueue q item
    let rest := runOps r.2 ops
    (rest.1,
     if r.1 = nm_queue_status.NM_QUEUE_SUCCESS then item :: rest.2.1 else rest.2.1,
     rest.2.2)
  | q, QueueOp.deq :: ops =>
    let r := nm_queue_dequeue q false
    let rest := runOps r.2.1 ops
    (rest.1, rest.2.1,
     if r.1 = nm_queue_status.NM_QUEUE_SUCCESS then r.2.2.getD 0 :: rest.2.2
     else rest.2.2)

/-- The abstract FIFO content of a queue state: the items_count_ slots
starting at head_, wrapping modulo capacity_. -/
def nm_queue.contents (q : nm_queue) : List Nat :=
  (List.range q.items_count_).map fun i => q.items_.getD ((q.head_ + i) % q.capacity_) 0

/-- Well-formedness of a queue state, as established by nm_queue_create and
maintained by enqueue/dequeue: the backing array has capacity_ slots, head_
is in range, tail_ is head_ + items_count_ modulo capacity_, and the count
never exceeds the capacity. -/
def nm_queue.wf (q : nm_queue) : Prop :=
  q.items_.length = q.capacity_ ∧
  q.head_ < q.capacity_ ∧
  q.tail_ = (q.head_ + q.items_count_) % q.capacity_ ∧
  q.items_count_ ≤ q.capacity_

instance (q : nm_queue) : Decidable q.wf := by
  unfold nm_queue.wf
  infer_instance

/-- The size/index invariant named by the spec: the count is bounded by the
capacity and both indices are reduced modulo the capacity. -/
def nm_queue.size_inv (q : nm_queue) : Prop :=
  q.items_count_ ≤ q.capacity_ ∧ q.head_ < q.capacity_ ∧ q.tail_ < q.capacity_

instance (q : nm_queue) : Decidable q.size_inv := by
  unfold nm_queue.size_inv
  infer_instance

/-- C5: on a valid (non-NULL) queue handle, nm_queue_enqueue rejects a NULL
item with the uninitialized-error status, returns the overflow status exactly
when the item count equals the capacity, and otherwise writes the item at
tail_, advances tail_ modulo the capacity, increments the count, and returns
NM_QUEUE_SUCCESS. -/
theorem enqueue_status_spec (q : nm_queue) (item : Nat) :
    (item = 0 →
      nm_queue_enqueue (some q) item = (.NM_QUEUE_UNINITIALIZED_ERROR, some q)) ∧
    (item ≠ 0 →
      ((nm_queue_enqueue (some q) item).1 = .NM_QUEUE_OVERFLOW_ERROR ↔
        q.items_count_ = q.capacity_)) ∧
    (item ≠ 0 → q.items_count_ ≠ q.capacity_ →
      nm_queue_enqueue (some q) item =
        (.NM_QUEUE_SUCCESS,
         some { q with items_ := q.items_.set q.tail_ item,
                       tail_ := (q.tail_ + 1) % q.capacity_,
                       items_count_ := q.items_count_ + 1 })) := by
  refine ⟨fun h => by simp [nm_queue_enqueue, h], fun h => ?_, fun h hf => ?_⟩
  · by_cases hc : q.capacity_ = q.items_count_
    · simp [nm_queue_enqueue, h, hc]
    · simp only [nm_queue_enqueue, h, hc, if_false, if_neg]
      constructor
      · intro hcontra
        exact absurd hcontra (by simp [hc])
      · intro hcc
        exact absurd hcc.symm hc
  · have hcf : ¬ q.capacity_ = q.items_count_ := fun hcc => hf hcc.symm
    simp [nm_queue_enqueue, h, hcf]

/-- Witness for C5 at concrete inputs: a NULL item on a fresh capacity-2
queue, an overflow on a full queue, and a successful enqueue. -/
theorem enqueue_status_spec_witness :
    nm_queue_enqueue (some ⟨[0, 0], 2, 0, 0, 0⟩) 0 =
      (.NM_QUEUE_UNINITIALIZED_ERROR, some ⟨[0, 0], 2, 0, 0, 0⟩) ∧
    ((nm_queue_enqueue (some ⟨[5, 6], 2, 0, 0, 2⟩) 7).1 = .NM_QUEUE_OVERFLOW_ERROR ↔
      (nm_queue.mk [5, 6] 2 0 0 2).items_count_ = (nm_queue.mk [5, 6] 2 0 0 2).capacity_) ∧
    nm_queue_enqueue (some ⟨[0, 0], 2, 0, 0, 0⟩) 7 =
      (.NM_QUEUE_SUCCESS, some ⟨[7, 0], 2, 0, 1, 1⟩) :=
  ⟨(enqueue_status_spec ⟨[0, 0], 2, 0, 0, 0⟩ 0).1 rfl,
   (enqueue_status_spec ⟨[5, 6], 2, 0, 0, 2⟩ 7).2.1 (by decide),
   (enqueue_status_spec ⟨[0, 0], 2, 0, 0, 0⟩ 7).2.2 (by decide) (by decide)⟩

/-- C6: a successful nm_queue_dequeue on a non-empty queue returns exactly
the item stored at the head slot and clears that slot to NULL (0), so the
backing array retains no stale handle for the handed-out item. -/
theorem dequeue_returns_head_and_clears_slot (q : nm_queue)
    (hne : q.items_count_ ≠ 0) (hlen : q.head_ < q.items_.length) :
    nm_queue_dequeue (some q) false =
      (.NM_QUEUE_SUCCESS,
       some { q with items_ := q.items_.set q.head_ 0,
                     head_ := (q.head_ + 1) % q.capacity_,
                     items_count_ := q.items_count_ - 1 },
       some (q.items_.getD q.head_ 0)) ∧
    (q.items_.set q.head_ 0).getD q.head_ 0 = 0 := by
  constructor
  · simp [nm_queue_dequeue, hne]
  · rw [List.getD_eq_getElem?_getD, List.getElem?_set_eq_of_lt 0 hlen]
    rfl

/-- Witness for C6 on a full capacity-2 queue holding 5 then 6. -/
theorem dequeue_returns_head_and_clears_slot_witness :
    ((nm_queue.mk [5, 6] 2 0 0 2).items_count_ ≠ 0 ∧
     (nm_queue.mk [5, 6] 2 0 0 2).head_ < (nm_queue.mk [5, 6] 2 0 0 2).items_.length) ∧
    (nm_queue_dequeue (some ⟨[5, 6], 2, 0, 0, 2⟩) false =
      (.NM_QUEUE_SUCCESS, some ⟨[0, 6], 2, 1, 0, 1⟩, some 5) ∧
     (([5, 6] : List Nat).set 0 0).getD 0 0 = 0) :=
  ⟨⟨by decide, by decide⟩,
   dequeue_returns_head_and_clears_slot ⟨[5, 6], 2, 0, 0, 2⟩ (by decide) (by decide)⟩

/-- C9: every underlying-queue operation called on the NULL queue handle
returns its designated sentinel: enqueue and dequeue return
NM_QUEUE_UNINITIALIZED_ERROR, is_empty returns -1 (distinct from both of the
boolean results 0 and 1 it produces on valid handles), and capacity and
for_each return MAX_SIZE_T = (size_t)-1 = 2^64 - 1. -/
theorem null_handle_sentinels :
    (∀ item, nm_queue_enqueue none item = (.NM_QUEUE_UNINITIALIZED_ERROR, none)) ∧
    (∀ b, nm_queue_dequeue none b = (.NM_QUEUE_UNINITIALIZED_ERROR, none, none)) ∧
    nm_queue_is_empty none = -1 ∧
    nm_queue_is_empty none ≠ 0 ∧ nm_queue_is_empty none ≠ 1 ∧
    (∀ q, nm_queue_is_empty (some q) = 0 ∨ nm_queue_is_empty (some q) = 1) ∧
    nm_queue_capacity none = MAX_SIZE_T ∧
    (∀ (cb : Option (Nat → Nat → Int × Nat)) (ctx : Nat),
      nm_queue_for_each none cb ctx = (MAX_SIZE_T, ctx)) ∧
    MAX_SIZE_T = 2 ^ 64 - 1 := by
  refine ⟨fun _ => rfl, fun _ => rfl, rfl, by decide, by decide, fun q => ?_,
    rfl, fun _ _ => rfl, rfl⟩
  by_cases h : q.items_count_ = 0 <;> simp [nm_queue_is_empty, h]

/-- C10: whenever nm_queue_enqueue or nm_queue_dequeue returns a non-success
status (NULL handle, NULL item, NULL output pointer, overflow, underflow),
the queue state is returned unchanged and no value is written through the
output pointer: failed operations are atomic. -/
theorem failed_ops_leave_queue_unchanged (q : Option nm_queue) (item : Nat) (b : Bool) :
    ((nm_queue_enqueue q item).1 ≠ .NM_QUEUE_SUCCESS →
      (nm_queue_enqueue q item).2 = q) ∧
    ((nm_queue_dequeue q b).1 ≠ .NM_QUEUE_SUCCESS →
      (nm_queue_dequeue q b).2.1 = q ∧ (nm_queue_dequeue q b).2.2 = none) := by
  constructor
  · cases q with
    | none => exact fun _ => rfl
    | some queue =>
      by_cases h0 : item = 0
      · intro _
        simp [nm_queue_enqueue, h0]
      · by_cases hc : queue.capacity_ = queue.items_count_
        · intro _
          simp [nm_queue_enqueue, h0, hc]
        · intro hcontra
          exact absurd (by simp [nm_queue_enqueue, h0, hc]) hcontra
  · cases q with
    | none => exact fun _ => ⟨rfl, rfl⟩
    | some queue =>
      cases b with
      | true =>
        intro _
        exact ⟨by simp [nm_queue_dequeue], by simp [nm_queue_dequeue]⟩
      | false =>
        by_cases hc : queue.items_count_ = 0
        · intro _
          exact ⟨by simp [nm_queue_dequeue, hc], by simp [nm_queue_dequeue, hc]⟩
        · intro hcontra
          exact absurd (by simp [nm_queue_dequeue, hc]) hcontra

/-- Witness for C10: a NULL-item enqueue and an empty-queue dequeue on a
fresh capacity-1 queue leave the state untouched. -/
theorem failed_ops_leave_queue_unchanged_witness :
    (nm_queue_enqueue (some ⟨[0], 1, 0, 0, 0⟩) 0).2 = some ⟨[0], 1, 0, 0, 0⟩ ∧
    ((nm_queue_dequeue (some ⟨[0], 1, 0, 0, 0⟩) false).2.1 = some ⟨[0], 1, 0, 0, 0⟩ ∧
     (nm_queue_dequeue (some ⟨[0], 1, 0, 0, 0⟩) false).2.2 = none) :=
  ⟨(failed_ops_leave_queue_unchanged (some ⟨[0], 1, 0, 0, 0⟩) 0 false).1 (by decide),
   (failed_ops_leave_queue_unchanged (some ⟨[0], 1, 0, 0, 0⟩) 3 false).2 (by decide)⟩

/-- C4 (refuting evaluation): on a capacity-1 queue holding exactly one item,
nm_queue_for_each with a visitor that never requests early termination
returns 2, not 1: when the loop runs to completion the size_t post-decrement
in "while(items_left-- > 0)" wraps items_left from 0 to SIZE_MAX, so the
final "items_count_ - items_left" evaluates to items_count_ + 1.  This
contradicts the function's own header documentation (return value equals the
number of items when all are iterated). -/
theorem for_each_full_iteration_overcounts :
    (nm_queue_enqueue (nm_queue_create 1) 7).2 =
      some { items_ := [7], capacity_ := 1, head_ := 0, tail_ := 0, items_count_ := 1 } ∧
    (nm_queue_for_each (nm_queue_enqueue (nm_queue_create 1) 7).2
      (some fun _ c => (1, c)) (0 : Nat)).1 = 2 := by
  constructor
  · rfl
  · decide

/-- C3 (refuting evaluation): nm_barrier_wait never resets the arrival
counter.  On a party-size-1 barrier the first wait completes but leaves
waiting_threads_count_ at 1 (the claim says the Nth arrival resets it to 0),
and the second wait increments it to 2, never hits the party size, posts
nothing, and blocks forever on the empty turnstile: the barrier is not
reusable for a second cycle. -/
theorem barrier_counter_never_reset :
    nm_barrier_wait (nm_barrier_init 1) =
      some { max_threads_count_ := 1, waiting_threads_count_ := 1, turnstile_ := 0 } ∧
    (nm_barrier_wait (nm_barrier_init 1)).bind nm_barrier_wait = none := by
  decide

/-- C8 (refuting evaluation): for a party-size-1 barrier the second call to
nm_barrier_wait blocks: after the first call the turnstile is back to 0 and
the unreset arrival counter (1 -> 2, never again equal to the party size 1)
means no post ever precedes the second call's wait on the turnstile. -/
theorem barrier_party_one_second_wait_blocks :
    ∃ b1, nm_barrier_wait (nm_barrier_init 1) = some b1 ∧ nm_barrier_wait b1 = none :=
  ⟨{ max_threads_count_ := 1, waiting_threads_count_ := 1, turnstile_ := 0 },
   by decide, by decide⟩

/-- Modular index arithmetic: two distinct in-range offsets from the same
base land on distinct slots. -/
theorem add_mod_ne_add_mod (h c a b : Nat) (hab : a < b) (hb : b < c) :
    (h + a) % c ≠ (h + b) % c := by
  intro heq
  have h1 : a % c = b % c := Nat.ModEq.add_left_cancel' h heq
  rw [Nat.mod_eq_of_lt (lt_trans hab hb), Nat.mod_eq_of_lt hb] at h1
  exact absurd h1 (Nat.ne_of_lt hab)

/-- nm_queue_create on a positive size yields a well-formed all-NULL queue
with empty FIFO content. -/
theorem create_wf (N : Nat) (hN : N ≠ 0) :
    nm_queue_create N = some ⟨List.replicate N 0, N, 0, 0, 0⟩ ∧
    (nm_queue.mk (List.replicate N 0) N 0 0 0).wf ∧
    (nm_queue.mk (List.replicate N 0) N 0 0 0).contents = [] := by
  refine ⟨by simp [nm_queue_create, hN],
    ⟨by simp, Nat.pos_of_ne_zero hN, by simp, Nat.zero_le N⟩,
    by simp [nm_queue.contents]⟩

/-- A successful enqueue on a well-formed queue appends the item to the FIFO
content and preserves well-formedness. -/
theorem enqueue_success_spec (q : nm_queue) (item : Nat)
    (hwf : q.wf) (hitem : item ≠ 0) (hfull : q.items_count_ ≠ q.capacity_) :
    ∃ q2, nm_queue_enqueue (some q) item = (.NM_QUEUE_SUCCESS, some q2) ∧
      q2.wf ∧ q2.contents = q.contents ++ [item] := by
  obtain ⟨hlen, hhead, htail, hcnt⟩ := hwf
  have hcap : 0 < q.capacity_ := Nat.lt_of_le_of_lt (Nat.zero_le _) hhead
  have hlt : q.items_count_ < q.capacity_ := Nat.lt_of_le_of_ne hcnt hfull
  have hcf : ¬ q.capacity_ = q.items_count_ := fun hcc => hfull hcc.symm
  have htlt : q.tail_ < q.capacity_ := by
    rw [htail]
    exact Nat.mod_lt _ hcap
  refine ⟨({ q with
      items_ := q.items_.set q.tail_ item,
      tail_ := (q.tail_ + 1) % q.capacity_,
      items_count_ := q.items_count_ + 1 } : nm_queue),
    by simp [nm_queue_enqueue, hitem, hcf], ⟨?_, ?_, ?_, ?_⟩, ?_⟩
  · simp [List.length_set, hlen]
  · exact hhead
  · show (q.tail_ + 1) % q.capacity_ = (q.head_ + (q.items_count_ + 1)) % q.capacity_
    rw [htail, Nat.mod_add_mod, Nat.add_assoc]
  · exact hlt
  · simp only [nm_queue.contents]
    rw [List.range_succ, List.map_append]
    congr 1
    · apply List.map_eq_map_iff.mpr
      intro i hi
      have hilt : i < q.items_count_ := List.mem_range.mp hi
      have hne : q.tail_ ≠ (q.head_ + i) % q.capacity_ := by
        rw [htail]
        exact (add_mod_ne_add_mod q.head_ q.capacity_ i q.items_count_ hilt hlt).symm
      rw [List.getD_eq_getElem?_getD, List.getD_eq_getElem?_getD,
        List.getElem?_set_ne hne]
    · simp only [List.map_cons, List.map_nil]
      rw [← htail, List.getD_eq_getElem?_getD,
        List.getElem?_set_eq_of_lt item (by rw [hlen]; exact htlt)]
      rfl

/-- A successful dequeue on a well-formed non-empty queue returns the first
element of the FIFO content, preserves well-formedness, and removes exactly
that element. -/
theorem dequeue_success_spec (q : nm_queue) (hwf : q.wf) (hne : q.items_count_ ≠ 0) :
    ∃ q2, nm_queue_dequeue (some q) false =
        (.NM_QUEUE_SUCCESS, some q2, some (q.items_.getD q.head_ 0)) ∧
      q2.wf ∧ q.contents = q.items_.getD q.head_ 0 :: q2.contents := by
  obtain ⟨hlen, hhead, htail, hcnt⟩ := hwf
  have hcap : 0 < q.capacity_ := Nat.lt_of_le_of_lt (Nat.zero_le _) hhead
  obtain ⟨k, hk⟩ : ∃ k, q.items_count_ = k + 1 :=
    ⟨q.items_count_ - 1, (Nat.succ_pred_eq_of_pos (Nat.pos_of_ne_zero hne)).symm⟩
  refine ⟨({ q with
      items_ := q.items_.set q.head_ 0,
      head_ := (q.head_ + 1) % q.capacity_,
      items_count_ := q.items_count_ - 1 } : nm_queue),
    by simp [nm_queue_dequeue, hne], ⟨?_, ?_, ?_, ?_⟩, ?_⟩
  · simp [List.length_set, hlen]
  · exact Nat.mod_lt _ hcap
  · show q.tail_ = ((q.head_ + 1) % q.capacity_ + (q.items_count_ - 1)) % q.capacity_
    rw [htail, Nat.mod_add_mod]
    congr 1
    omega
  · exact Nat.le_trans (Nat.sub_le _ _) hcnt
  · simp only [nm_queue.contents, hk, Nat.add_sub_cancel]
    rw [List.range_succ_eq_map, List.map_cons, List.map_map]
    congr 1
    · rw [Nat.add_zero, Nat.mod_eq_of_lt hhead]
    · apply List.map_eq_map_iff.mpr
      intro i hi
      have hik : i < k := List.mem_range.mp hi
      have hi1 : i + 1 < q.capacity_ := by omega
      have hne2 : q.head_ ≠ ((q.head_ + 1) % q.capacity_ + i) % q.capacity_ := by
        rw [Nat.mod_add_mod]
        have hz := add_mod_ne_add_mod q.head_ q.capacity_ 0 (i + 1)
          (Nat.succ_pos i) hi1
        rw [Nat.add_zero, Nat.mod_eq_of_lt hhead] at hz
        rw [show q.head_ + 1 + i = q.head_ + (i + 1) by omega]
        exact hz
      simp only [Function.comp]
      rw [List.getD_eq_getElem?_getD, List.getD_eq_getElem?_getD,
        List.getElem?_set_ne hne2, Nat.mod_add_mod,
        show q.head_ + 1 + i = q.head_ + (i + 1) by omega]

/-- Running any client call sequence from a well-formed queue reaches a
well-formed queue, and the starting content followed by the successfully
enqueued items equals the successfully dequeued items followed by the final
content: items move through in FIFO order with no duplication or loss. -/
theorem runOps_fifo (ops : List QueueOp) (q : nm_queue) (hwf : q.wf) :
    ∃ qf, (runOps (some q) ops).1 = some qf ∧ qf.wf ∧
      q.contents ++ (runOps (some q) ops).2.1 =
        (runOps (some q) ops).2.2 ++ qf.contents := by
  induction ops generalizing q with
  | nil => exact ⟨q, rfl, hwf, by simp [runOps]⟩
  | cons op ops ih =>
    cases op with
    | enq item =>
      by_cases h0 : item = 0
      · have heq : nm_queue_enqueue (some q) item =
            (nm_queue_status.NM_QUEUE_UNINITIALIZED_ERROR, some q) := by
          simp [nm_queue_enqueue, h0]
        obtain ⟨qf, h1, h2, h3⟩ := ih q hwf
        exact ⟨qf, by simp [runOps, heq, h1], h2, by simp [runOps, heq, h3]⟩
      · by_cases hc : q.capacity_ = q.items_count_
        · have heq : nm_queue_enqueue (some q) item =
              (nm_queue_status.NM_QUEUE_OVERFLOW_ERROR, some q) := by
            simp [nm_queue_enqueue, h0, hc]
          obtain ⟨qf, h1, h2, h3⟩ := ih q hwf
          exact ⟨qf, by simp [runOps, heq, h1], h2, by simp [runOps, heq, h3]⟩
        · obtain ⟨q2, heq, hwf2, hcont⟩ := enqueue_success_spec q item hwf h0
            (fun hcc => hc hcc.symm)
          obtain ⟨qf, h1, h2, h3⟩ := ih q2 hwf2
          refine ⟨qf, by simp [runOps, heq, h1], h2, ?_⟩
          have hrede : (runOps (some q) (QueueOp.enq item :: ops)).2.1 =
              item :: (runOps (some q2) ops).2.1 := by simp [runOps, heq]
          have hredd : (runOps (some q) (QueueOp.enq item :: ops)).2.2 =
              (runOps (some q2) ops).2.2 := by simp [runOps, heq]
          rw [hrede, hredd, List.append_cons, ← hcont]
          exact h3
    | deq =>
      by_cases hc : q.items_count_ = 0
      · have heq : nm_queue_dequeue (some q) false =
            (nm_queue_status.NM_QUEUE_UNDERFLOW_ERROR, some q, none) := by
          simp [nm_queue_dequeue, hc]
        obtain ⟨qf, h1, h2, h3⟩ := ih q hwf
        exact ⟨qf, by simp [runOps, heq, h1], h2, by simp [runOps, heq, h3]⟩
      · obtain ⟨q2, heq, hwf2, hcont⟩ := dequeue_success_spec q hwf hc
        obtain ⟨qf, h1, h2, h3⟩ := ih q2 hwf2
        refine ⟨qf, by simp [runOps, heq, h1], h2, ?_⟩
        have hrede : (runOps (some q) (QueueOp.deq :: ops)).2.1 =
            (runOps (some q2) ops).2.1 := by simp [runOps, heq]
        have hredd : (runOps (some q) (QueueOp.deq :: ops)).2.2 =
            q.items_.getD q.head_ 0 :: (runOps (some q2) ops).2.2 := by
          simp [runOps, heq]
        rw [hrede, hredd, hcont, List.cons_append, h3, List.cons_append]

/-- C1: for every sequence of nm_queue_enqueue / nm_queue_dequeue calls on a
queue created by nm_queue_create with capacity N > 0, the list of
successfully enqueued items equals the list of successfully dequeued items
followed by the items still buffered, and the k-th successful dequeue
returns exactly the k-th successfully enqueued item: FIFO order is
preserved and no item is duplicated or lost. -/
theorem fifo_order_preserved (N : Nat) (ops : List QueueOp) (hN : N ≠ 0) :
    ∃ qf, (runOps (nm_queue_create N) ops).1 = some qf ∧
      (runOps (nm_queue_create N) ops).2.1 =
        (runOps (nm_queue_create N) ops).2.2 ++ qf.contents ∧
      ∀ k, k < (runOps (nm_queue_create N) ops).2.2.length →
        (runOps (nm_queue_create N) ops).2.2[k]? =
          (runOps (nm_queue_create N) ops).2.1[k]? := by
  obtain ⟨hcreate, hwf0, hcont0⟩ := create_wf N hN
  rw [hcreate]
  obtain ⟨qf, h1, h2, h3⟩ := runOps_fifo ops _ hwf0
  rw [hcont0, List.nil_append] at h3
  refine ⟨qf, h1, h3, ?_⟩
  intro k hk
  rw [h3, List.getElem?_append_left hk]

/-- Witness for C1 at capacity 2 and the call sequence
enq 5, enq 7, deq, enq 9, deq, deq. -/
theorem fifo_order_preserved_witness :
    (2 : Nat) ≠ 0 ∧
    (∃ qf, (runOps (nm_queue_create 2)
        [QueueOp.enq 5, QueueOp.enq 7, QueueOp.deq,
         QueueOp.enq 9, QueueOp.deq, QueueOp.deq]).1 = some qf ∧
      (runOps (nm_queue_create 2)
        [QueueOp.enq 5, QueueOp.enq 7, QueueOp.deq,
         QueueOp.enq 9, QueueOp.deq, QueueOp.deq]).2.1 =
        (runOps (nm_queue_create 2)
          [QueueOp.enq 5, QueueOp.enq 7, QueueOp.deq,
           QueueOp.enq 9, QueueOp.deq, QueueOp.deq]).2.2 ++ qf.contents ∧
      ∀ k, k < (runOps (nm_queue_create 2)
          [QueueOp.enq 5, QueueOp.enq 7, QueueOp.deq,
           QueueOp.enq 9, QueueOp.deq, QueueOp.deq]).2.2.length →
        (runOps (nm_queue_create 2)
          [QueueOp.enq 5, QueueOp.enq 7, QueueOp.deq,
           QueueOp.enq 9, QueueOp.deq, QueueOp.deq]).2.2[k]? =
          (runOps (nm_queue_create 2)
            [QueueOp.enq 5, QueueOp.enq 7, QueueOp.deq,
             QueueOp.enq 9, QueueOp.deq, QueueOp.deq]).2.1[k]?) :=
  ⟨by decide,
   fifo_order_preserved 2
     [QueueOp.enq 5, QueueOp.enq 7, QueueOp.deq,
      QueueOp.enq 9, QueueOp.deq, QueueOp.deq] (by decide)⟩

/-- C7: every queue produced by nm_queue_create satisfies the state
invariant items_count_ <= capacity_, head_ < capacity_, tail_ < capacity_
(the lower bound 0 <= items_count_ is automatic for Nat), and
nm_queue_enqueue and nm_queue_dequeue preserve it.  The remaining
operations of the claim (nm_queue_is_empty, nm_queue_capacity,
nm_queue_for_each) do not modify the queue state in the model (they return
no queue), so they preserve the invariant trivially. -/
theorem queue_ops_preserve_invariant :
    (∀ N q0, nm_queue_create N = some q0 → q0.size_inv) ∧
    (∀ q item q2, q.size_inv → (nm_queue_enqueue (some q) item).2 = some q2 →
      q2.size_inv) ∧
    (∀ q b st q2 v, q.size_inv → nm_queue_dequeue (some q) b = (st, some q2, v) →
      q2.size_inv) := by
  refine ⟨?_, ?_, ?_⟩
  · intro N q0 h
    by_cases hN : N = 0
    · rw [hN] at h
      simp [nm_queue_create] at h
    · rw [nm_queue_create, if_neg hN] at h
      obtain rfl := Option.some.inj h
      exact ⟨Nat.zero_le N, Nat.pos_of_ne_zero hN, Nat.pos_of_ne_zero hN⟩
  · intro q item q2 hinv h
    obtain ⟨hcnt, hhead, htail⟩ := hinv
    have hcap : 0 < q.capacity_ := Nat.lt_of_le_of_lt (Nat.zero_le _) hhead
    by_cases h0 : item = 0
    · simp only [nm_queue_enqueue, h0, if_true, if_pos rfl] at h
      obtain rfl := Option.some.inj h
      exact ⟨hcnt, hhead, htail⟩
    · by_cases hcfull : q.capacity_ = q.items_count_
      · simp only [nm_queue_enqueue, h0, hcfull, if_false, if_neg, ite_true,
          ite_false, if_pos rfl] at h
        obtain rfl := Option.some.inj h
        exact ⟨hcnt, hhead, htail⟩
      · simp only [nm_queue_enqueue, h0, hcfull, ite_false, if_neg] at h
        obtain rfl := Option.some.inj h
        exact ⟨Nat.lt_of_le_of_ne hcnt (fun hcc => hcfull hcc.symm), hhead,
          Nat.mod_lt _ hcap⟩
  · intro q b st q2 v hinv h
    obtain ⟨hcnt, hhead, htail⟩ := hinv
    have hcap : 0 < q.capacity_ := Nat.lt_of_le_of_lt (Nat.zero_le _) hhead
    cases b with
    | true =>
      simp [nm_queue_dequeue] at h
      obtain ⟨-, hq, -⟩ := h
      rw [← hq]
      exact ⟨hcnt, hhead, htail⟩
    | false =>
      by_cases hc0 : q.items_count_ = 0
      · simp [nm_queue_dequeue, hc0] at h
        obtain ⟨-, hq, -⟩ := h
        rw [← hq]
        exact ⟨hcnt, hhead, htail⟩
      · simp [nm_queue_dequeue, hc0] at h
        obtain ⟨-, hq, -⟩ := h
        rw [← hq]
        exact ⟨Nat.le_trans (Nat.sub_le _ _) hcnt, Nat.mod_lt _ hcap, htail⟩

/-- Witness for C7: the invariant holds for the queue created with capacity
1, after enqueueing 7 into it, and after dequeueing again. -/
theorem queue_ops_preserve_invariant_witness :
    (nm_queue.mk [0] 1 0 0 0).size_inv ∧
    (nm_queue.mk [7] 1 0 0 1).size_inv ∧
    (nm_queue.mk [0] 1 0 0 0).size_inv :=
  ⟨queue_ops_preserve_invariant.1 1 ⟨[0], 1, 0, 0, 0⟩ (by decide),
   queue_ops_preserve_invariant.2.1 ⟨[0], 1, 0, 0, 0⟩ 7 ⟨[7], 1, 0, 0, 1⟩
     (by decide) (by decide),
   queue_ops_preserve_invariant.2.2 ⟨[7], 1, 0, 0, 1⟩ false
     nm_queue_status.NM_QUEUE_SUCCESS ⟨[0], 1, 0, 0, 0⟩ (some 7)
     (by decide) (by decide)⟩
